import Mathlib

/-
Verification development for the OpenTutor client-side
progress-synchronization and session-persistence engine.

The definitions below are a shallow embedding of the TypeScript source:
  - the KnowledgePage progress map, its WebSocket onmessage handler, the
    restore-from-localStorage sanitation effect, and the WebSocket
    connection-sync effect;
  - the useSolverSession hook: addMessage, clearSession and the debounce
    helper.
Timestamps are epoch milliseconds modelled as Int; an absent or falsy
JavaScript value is modelled as Option.none.
-/

namespace OpenTutor

/-- Stage strings the page treats as terminal: the literal comparisons
`stage === "completed" || stage === "error"` used throughout the source. -/
def isTerminalStage (stage : String) : Bool :=
  stage == "completed" || stage == "error"

/-- The `ProgressInfo` interface of the page, together with the `timestamp`
field that the handlers read from the runtime payload (the interface omits
it, but the code accesses `progress.timestamp` / `data.data.timestamp`).
`timestamp` is epoch milliseconds; `none` models an absent value. -/
structure ProgressInfo where
  stage : String
  message : String
  current : Nat
  total : Nat
  file_name : Option String
  progress_percent : Nat
  error : Option String
  timestamp : Option Int
deriving DecidableEq

/-- The progress map `Record<string, ProgressInfo>`, as an association list
with string keys. -/
abbrev ProgressMap := List (String × ProgressInfo)

/-- JavaScript object update `{ ...prev, [k]: v }` on the association-list
model: any existing binding for `k` is replaced. -/
def setKey (m : ProgressMap) (k : String) (v : ProgressInfo) : ProgressMap :=
  m.filter (fun p => p.1 != k) ++ [(k, v)]

/-- `const progressTime = data.data.timestamp ? new Date(...).getTime() : 0`:
the numeric receipt of the payload timestamp, `0` when absent. -/
def progressTimeOf (p : ProgressInfo) : Int :=
  p.timestamp.getD 0

/-- `const fiveMinutes = 5 * 60 * 1000`. -/
def fiveMinutesMs : Int := 5 * 60 * 1000

/-- `const thirtyMinutes = 30 * 60 * 1000`. -/
def thirtyMinutesMs : Int := 30 * 60 * 1000

/-- The staleness guard of the onmessage handler: when the KB is already
initialized (`kb.statistics.rag_initialized`), a non-terminal update is
skipped if `!progressTime || now - progressTime > fiveMinutes`. -/
def staleSkip (ragInitialized : Bool) (incoming : ProgressInfo) (now : Int) : Bool :=
  ragInitialized && !(isTerminalStage incoming.stage) &&
    (progressTimeOf incoming == 0 ||
      decide (now - progressTimeOf incoming > fiveMinutesMs))

/-- The page state relevant to progress: the in-memory `progressMap` React
state and the `kb_progress_map` localStorage entry (deserialized). -/
structure StoreState where
  progressMap : ProgressMap
  persisted : ProgressMap
deriving DecidableEq

/-- The `ws.onmessage` handler for a parsed `progress` message: apply the
staleness guard; if not skipped, set the incoming record under the KB name
and write the updated map to localStorage. Returns whether the record was
accepted together with the new state. -/
def wsIngest (ragInitialized : Bool) (kbName : String) (incoming : ProgressInfo)
    (now : Int) (st : StoreState) : Bool × StoreState :=
  if staleSkip ragInitialized incoming now then (false, st)
  else
    let updated := setKey st.progressMap kbName incoming
    (true, ⟨updated, updated⟩)

/-- The keep-condition of the restore-from-localStorage effect: with a
timestamp, keep when completed, error, or `age < thirtyMinutes`; without a
timestamp, keep only completed/error. -/
def keepOnRestore (now : Int) (p : ProgressInfo) : Bool :=
  match p.timestamp with
  | some ts => isTerminalStage p.stage || decide (now - ts < thirtyMinutesMs)
  | none => isTerminalStage p.stage

/-- The cleanup pass over the persisted map performed on load. -/
def sanitizeOnLoad (now : Int) (saved : ProgressMap) : ProgressMap :=
  saved.filter (fun e => keepOnRestore now e.2)

/-- The whole restore effect: sanitize the saved map, install it as the
in-memory map, and write it back to localStorage immediately. -/
def restoreFromStorage (now : Int) (saved : ProgressMap) : StoreState :=
  let cleaned := sanitizeOnLoad now saved
  ⟨cleaned, cleaned⟩

/-- WebSocket `readyState` values. -/
inductive WSReady where
  | Connecting
  | Open
  | Closing
  | Closed
deriving DecidableEq

/-- The `readyState === OPEN || readyState === CONNECTING` test guarding every
`ws.close()` call in the page. -/
def isActiveWS (r : WSReady) : Bool :=
  r == WSReady.Open || r == WSReady.Connecting

/-- The `wsConnectionsRef.current` object: KB name to connection state. -/
abbrev ConnMap := List (String × WSReady)

/-- `connections[name] = ws` on the association-list model. -/
def setConn (cs : ConnMap) (n : String) (v : WSReady) : ConnMap :=
  cs.filter (fun p => p.1 != n) ++ [(n, v)]

/-- The `kbs.forEach` loop of the sync effect: for each KB name, reuse an
existing connection whose `readyState !== CLOSED`, otherwise create a fresh
one (which starts `CONNECTING`) and record its name as newly opened. -/
def openLoop : ConnMap → List String → List String → ConnMap × List String
  | cs, acc, [] => (cs, acc)
  | cs, acc, n :: rest =>
    match cs.lookup n with
    | some rs =>
      if rs != WSReady.Closed then openLoop cs acc rest
      else openLoop (setConn cs n WSReady.Connecting) (acc ++ [n]) rest
    | none => openLoop (setConn cs n WSReady.Connecting) (acc ++ [n]) rest

/-- `[...names].sort()`. -/
def sortNames (l : List String) : List String :=
  l.insertionSort (fun a b => a ≤ b)

/-- `[...names].sort().join(",")`, the comparison key of the sync effect. -/
def sortedKey (l : List String) : String :=
  String.intercalate "," (sortNames l)

/-- Registry state: the live connection map and `kbsNamesRef.current`. -/
structure RegistryState where
  connections : ConnMap
  prevNames : List String
deriving DecidableEq

/-- Channel actions performed by one run of the sync effect: names for which
a new WebSocket was constructed, and names for which `ws.close()` was
invoked. -/
structure SyncActions where
  opened : List String
  closedChans : List String
deriving DecidableEq

/-- The WebSocket sync effect of the page, for a loaded KB list `kbs`:
skip entirely when the sorted, comma-joined name list equals the previous
one, is non-empty, and connections exist; when `kbs` is empty close every
active connection and clear the registry; otherwise close and drop
connections for dropped names, open connections for names lacking a live
one, and record `kbs` as the previous name list. -/
def sync (kbs : List String) (st : RegistryState) : RegistryState × SyncActions :=
  if sortedKey kbs == sortedKey st.prevNames && sortedKey kbs != "" &&
      !st.connections.isEmpty then
    (st, ⟨[], []⟩)
  else if kbs.isEmpty then
    (⟨[], []⟩, ⟨[], (st.connections.filter (fun c => isActiveWS c.2)).map (fun c => c.1)⟩)
  else
    (⟨(openLoop (st.connections.filter (fun c => kbs.contains c.1)) [] kbs).1, kbs⟩,
     ⟨(openLoop (st.connections.filter (fun c => kbs.contains c.1)) [] kbs).2,
      ((st.connections.filter (fun c => !kbs.contains c.1)).filter
        (fun c => isActiveWS c.2)).map (fun c => c.1)⟩)

/-- Message roles of the solver session. -/
inductive Role where
  | user
  | assistant
deriving DecidableEq

/-- `SolverMessage` from useSolverSession. -/
structure SolverMessage where
  role : Role
  content : String
  output_dir : Option String
  timestamp : Option String
deriving DecidableEq

/-- `TokenStats` from useSolverSession; `cost` is a JavaScript number,
modelled as a rational. -/
structure TokenStats where
  model : String
  calls : Nat
  tokens : Nat
  input_tokens : Nat
  output_tokens : Nat
  cost : Rat
deriving DecidableEq

/-- `SolverSession` from useSolverSession. -/
structure SolverSession where
  id : String
  title : String
  knowledge_base : String
  messages : List SolverMessage
  token_stats : TokenStats
  created_at : String
  updated_at : String
  is_active : Bool
  message_count : Nat
deriving DecidableEq

/-- Hook state touched by addMessage and clearSession: the `session` React
state, the localStorage copy under `deeptutor-solver-session`, and
`lastMessagesRef.current` (`none` models the empty string it is reset to). -/
structure SessionCacheState where
  session : Option SolverSession
  cached : Option SolverSession
  lastMessages : Option (List SolverMessage)
deriving DecidableEq

/-- JavaScript `outputDir || null`: an absent or empty string becomes null. -/
def jsStringOrNull (o : Option String) : Option String :=
  match o with
  | some s => if s == "" then none else some s
  | none => none

/-- Outcome of the authoritative append call: a parsed OK response carrying
the authoritative session, or any failure (network error or non-OK status,
both of which land in the catch block). -/
inductive AppendResult where
  | ok (data : SolverSession)
  | fail
deriving DecidableEq

/-- Result of one addMessage call: the returned value, the new hook state,
and whether a network request was issued. -/
structure AddMessageResult where
  returned : Option SolverSession
  state : SessionCacheState
  requested : Bool
deriving DecidableEq

/-- `addMessage(role, content, outputDir)`: with no active session, warn and
return null without any request; otherwise POST the message; on OK replace
local state and cache with the authoritative response; on failure append an
optimistic message with a local timestamp, bump `message_count`, and persist
the updated session. -/
def addMessage (st : SessionCacheState) (role : Role) (content : String)
    (outputDir : Option String) (backend : AppendResult) (now : String) :
    AddMessageResult :=
  match st.session with
  | none => ⟨none, st, false⟩
  | some session =>
    match backend with
    | AppendResult.ok data => ⟨some data, ⟨some data, some data, some data.messages⟩, true⟩
    | AppendResult.fail =>
      let newMsg : SolverMessage := ⟨role, content, jsStringOrNull outputDir, some now⟩
      let updated := { session with
        messages := session.messages ++ [newMsg],
        message_count := session.message_count + 1 }
      ⟨some updated, ⟨some updated, some updated, st.lastMessages⟩, true⟩

/-- The session built in the catch block of addMessage: the optimistic
message appended and the count bumped. -/
def appendedSession (s : SolverSession) (role : Role) (content : String)
    (outputDir : Option String) (now : String) : SolverSession :=
  { s with
    messages := s.messages ++ [⟨role, content, jsStringOrNull outputDir, some now⟩],
    message_count := s.message_count + 1 }

/-- `clearSession`: remove the cached copy, null the session, reset
`lastMessagesRef.current` to the empty string. -/
def clearSession (_st : SessionCacheState) : SessionCacheState :=
  ⟨none, none, none⟩

/-- The body of the debounced auto-save: skipped when the captured session
has an empty id, otherwise a PUT of the session id, title and knowledge
base. -/
def saveBody (sessionToSave : SolverSession) : Option (String × String × String) :=
  if sessionToSave.id == "" then none
  else some (sessionToSave.id, sessionToSave.title, sessionToSave.knowledge_base)

/-- Hook state together with the debounce closure state: the pending
`setTimeout` of debouncedSave, holding its deadline and captured session. -/
structure SolverHookState where
  cache : SessionCacheState
  pendingSave : Option (Int × SolverSession)
deriving DecidableEq

/-- clearSession at the hook level: it runs clearCache / setSession(null) /
lastMessagesRef reset and has no reference to the debounce closure, so the
pending timer is left exactly as it was. -/
def clearSessionHook (st : SolverHookState) : SolverHookState :=
  ⟨clearSession st.cache, st.pendingSave⟩

/-- What the pending timer does when it fires: run the debounced save body
on the session captured at scheduling time. -/
def firePendingSave (st : SolverHookState) : Option (String × String × String) :=
  match st.pendingSave with
  | none => none
  | some (_, s) => saveBody s

/-- Timed semantics of the `debounce` helper: the closure state is the one
optional pending timeout, holding its deadline and the captured arguments.
`debRun wait pend calls` processes the calls in order, each at its own
timestamp: a pending timeout whose deadline has passed fires (its arguments
are emitted as a write), and the call always replaces the pending timeout by
a fresh one at `now + wait` (clearTimeout plus setTimeout). -/
def debRun {α : Type} (wait : Int) :
    Option (Int × α) → List (Int × α) → List α × Option (Int × α)
  | pend, [] => ([], pend)
  | pend, (t, a) :: rest =>
    match pend with
    | some (d, old) =>
      if d ≤ t then
        let r := debRun wait (some (t + wait, a)) rest
        (old :: r.1, r.2)
      else debRun wait (some (t + wait, a)) rest
    | none => debRun wait (some (t + wait, a)) rest

/-- All writes eventually issued: those fired during the calls, plus the
last pending timeout once it expires undisturbed. -/
def debFlush {α : Type} (wait : Int) (pend : Option (Int × α))
    (calls : List (Int × α)) : List α :=
  let r := debRun wait pend calls
  r.1 ++ (match r.2 with | some da => [da.2] | none => [])

/-- Each call happens strictly within the quiet period of its predecessor. -/
def withinQuiet {α : Type} (wait : Int) : List (Int × α) → Bool
  | [] => true
  | [_] => true
  | (t1, _) :: (t2, a2) :: rest =>
    decide (t2 - t1 < wait) && withinQuiet wait ((t2, a2) :: rest)

/-- A terminal record carrying a payload timestamp. -/
def complMath : ProgressInfo := ⟨"completed", "done", 3, 3, none, 100, none, some 1000⟩

/-- A recent non-terminal record carrying a payload timestamp. -/
def procMath : ProgressInfo := ⟨"processing", "working", 1, 3, none, 40, none, some 2000⟩

/-- A non-terminal record with no timestamp. -/
def staleProc : ProgressInfo := ⟨"processing", "working", 0, 0, none, 0, none, none⟩

/-- A non-terminal record persisted at epoch 0. -/
def oldProc : ProgressInfo := ⟨"processing", "working", 1, 2, none, 50, none, some 0⟩

/-- A terminal record persisted at epoch 0. -/
def oldDone : ProgressInfo := ⟨"completed", "done", 2, 2, none, 100, none, some 0⟩

/-- A persisted map holding one stuck and one completed record. -/
def savedSample : ProgressMap := [("algebra", oldProc), ("geometry", oldDone)]

/-- A store whose record for math101 is terminal, mirrored to storage. -/
def terminalStore : StoreState := ⟨[("math101", oldDone)], [("math101", oldDone)]⟩

/-- Sample token statistics. -/
def sampleStats : TokenStats := ⟨"gpt-4o", 0, 0, 0, 0, 0⟩

/-- A sample active solver session. -/
def sampleSession : SolverSession :=
  ⟨"sess-1", "Algebra homework", "math101", [], sampleStats, "t0", "t1", true, 0⟩

/-- Session cache state holding the sample session. -/
def sampleCache : SessionCacheState :=
  ⟨some sampleSession, some sampleSession, some []⟩

/-- Hook state with the sample session active and a debounced save of it
pending with deadline 1000. -/
def sampleHookState : SolverHookState :=
  ⟨sampleCache, some (1000, sampleSession)⟩

lemma lookup_filter_ne {β : Type} (m : List (String × β)) (k : String) :
    (m.filter (fun p => p.1 != k)).lookup k = none := by
  induction m with
  | nil => rfl
  | cons p m ih =>
    by_cases h : p.1 = k
    · simpa [List.filter_cons, h] using ih
    · have hb : (p.1 != k) = true := by simp [h]
      rcases p with ⟨a, b⟩
      have hk : (k == a) = false := by
        simp only [ne_eq] at h
        simp [beq_eq_false_iff_ne, Ne.symm h]
      simp only [List.filter_cons, hb, if_true, List.lookup_cons, hk]
      exact ih

lemma lookup_append_none {β : Type} {l1 : List (String × β)} (l2 : List (String × β))
    {k : String} (h : l1.lookup k = none) : (l1 ++ l2).lookup k = l2.lookup k := by
  induction l1 with
  | nil => rfl
  | cons p l ih =>
    rcases p with ⟨a, b⟩
    rw [List.lookup_cons] at h
    rw [List.cons_append, List.lookup_cons]
    cases hk : (k == a) with
    | true =>
      simp only [hk] at h
      exact absurd h (by simp)
    | false =>
      simp only [hk] at h ⊢
      exact ih h

lemma lookup_set_self {β : Type} (m : List (String × β)) (k : String) (v : β) :
    ((m.filter (fun p => p.1 != k)) ++ [(k, v)]).lookup k = some v := by
  rw [lookup_append_none [(k, v)] (lookup_filter_ne m k)]
  simp [List.lookup_cons]

lemma lookup_setKey_self (m : ProgressMap) (k : String) (v : ProgressInfo) :
    (setKey m k v).lookup k = some v :=
  lookup_set_self m k v

/-- A stale non-terminal message for an initialized KB is dropped and the
state left untouched. -/
lemma wsIngest_skip_of_stale (name : String) (inc : ProgressInfo) (now : Int)
    (st : StoreState) (hterm : isTerminalStage inc.stage = false)
    (hstale : inc.timestamp = none ∨ now - progressTimeOf inc > fiveMinutesMs) :
    wsIngest true name inc now st = (false, st) := by
  have hskip : staleSkip true inc now = true := by
    unfold staleSkip
    rw [hterm]
    rcases hstale with h | h
    · simp [progressTimeOf, h]
    · simp [h]
  simp [wsIngest, hskip]

/-- C2. Stale-after-ready suppression: when the authoritative source reports
the KB as initialized, an incoming non-terminal record whose timestamp is
absent or more than five minutes old at receipt is rejected, and both the
in-memory map and the persisted map are unchanged. -/
theorem stale_after_ready_suppression (name : String) (inc : ProgressInfo)
    (now : Int) (st : StoreState)
    (hterm : isTerminalStage inc.stage = false)
    (hstale : inc.timestamp = none ∨ now - progressTimeOf inc > fiveMinutesMs) :
    wsIngest true name inc now st = (false, st) :=
  wsIngest_skip_of_stale name inc now st hterm hstale

/-- Witness for stale_after_ready_suppression at a concrete input. -/
theorem stale_after_ready_suppression_witness :
    wsIngest true "fresh" staleProc 0 ⟨[], []⟩ = (false, ⟨[], []⟩) :=
  stale_after_ready_suppression "fresh" staleProc 0 ⟨[], []⟩ (by decide) (Or.inl rfl)

/-- C1 counterexample: with the KB not yet reported initialized, a terminal
record is accepted and a later non-terminal record is accepted as well,
replacing the stored terminal record. -/
theorem terminal_record_overwritten_cex :
    (wsIngest false "math101" complMath 1000 ⟨[], []⟩).1 = true ∧
    isTerminalStage complMath.stage = true ∧
    isTerminalStage procMath.stage = false ∧
    (wsIngest false "math101" procMath 2000
        (wsIngest false "math101" complMath 1000 ⟨[], []⟩).2).1 = true ∧
    ((wsIngest false "math101" procMath 2000
        (wsIngest false "math101" complMath 1000 ⟨[], []⟩).2).2.progressMap.lookup
      "math101") = some procMath := by
  decide

/-- C1 as amended: terminal stickiness holds only when the entity is known
settled and the late non-terminal record is stale — with a terminal record
stored for an initialized KB, a subsequently ingested non-terminal record
whose timestamp is absent or more than five minutes old is rejected and the
state is unchanged. -/
theorem terminal_sticky_only_when_settled_and_stale (name : String)
    (cur inc : ProgressInfo) (now : Int) (st : StoreState)
    (_hcur : st.progressMap.lookup name = some cur)
    (_hcurterm : isTerminalStage cur.stage = true)
    (hterm : isTerminalStage inc.stage = false)
    (hstale : inc.timestamp = none ∨ now - progressTimeOf inc > fiveMinutesMs) :
    wsIngest true name inc now st = (false, st) :=
  wsIngest_skip_of_stale name inc now st hterm hstale

/-- Witness for terminal_sticky_only_when_settled_and_stale. -/
theorem terminal_sticky_only_when_settled_and_stale_witness :
    wsIngest true "math101" staleProc 99 terminalStore = (false, terminalStore) :=
  terminal_sticky_only_when_settled_and_stale "math101" oldDone staleProc 99
    terminalStore (by decide) (by decide) (by decide) (Or.inl rfl)

/-- C5 counterexample: an accepted record is stored with the timestamp the
network payload carried, not with the local receipt time. -/
theorem observedAt_not_stamped_cex :
    (wsIngest false "kb1" procMath 999999 ⟨[], []⟩).1 = true ∧
    (wsIngest false "kb1" procMath 999999 ⟨[], []⟩).2.progressMap.lookup "kb1"
      = some procMath ∧
    procMath.timestamp = some 2000 ∧
    procMath.timestamp ≠ some 999999 := by
  decide

/-- C5 as amended: on acceptance the incoming record is stored verbatim
(network timestamp included, no local stamping), and the full updated map is
persisted. -/
theorem ingest_stores_record_verbatim (settled : Bool) (name : String)
    (inc : ProgressInfo) (now : Int) (st : StoreState)
    (hacc : (wsIngest settled name inc now st).1 = true) :
    (wsIngest settled name inc now st).2.progressMap = setKey st.progressMap name inc ∧
    (wsIngest settled name inc now st).2.persisted = setKey st.progressMap name inc ∧
    (wsIngest settled name inc now st).2.progressMap.lookup name = some inc := by
  by_cases h : staleSkip settled inc now = true
  · simp [wsIngest, h] at hacc
  · simp [wsIngest, h, lookup_setKey_self]

/-- Witness for ingest_stores_record_verbatim. -/
theorem ingest_stores_record_verbatim_witness :
    (wsIngest false "kb1" procMath 999999 ⟨[], []⟩).2.progressMap
        = setKey ([] : ProgressMap) "kb1" procMath ∧
    (wsIngest false "kb1" procMath 999999 ⟨[], []⟩).2.persisted
        = setKey ([] : ProgressMap) "kb1" procMath ∧
    (wsIngest false "kb1" procMath 999999 ⟨[], []⟩).2.progressMap.lookup "kb1"
        = some procMath :=
  ingest_stores_record_verbatim false "kb1" procMath 999999 ⟨[], []⟩ (by decide)

/-- C6 counterexample: an entity with no stored record does not have its
notification accepted unconditionally — for an initialized KB, a
timestampless non-terminal record is rejected even though no record is
stored. -/
theorem absent_record_not_unconditional_cex :
    (([] : ProgressMap).lookup "fresh") = none ∧
    wsIngest true "fresh" staleProc 0 ⟨[], []⟩ = (false, ⟨[], []⟩) := by
  decide

/-- C6 as amended: when no record is stored for the entity, the incoming
record is accepted if and only if it is not the case that the KB is reported
initialized and the record is non-terminal with an absent-or-zero or
more-than-five-minutes-old timestamp; the stored map plays no role in the
decision. -/
theorem absent_record_accept_iff_not_stale (settled : Bool) (name : String)
    (inc : ProgressInfo) (now : Int) (st : StoreState)
    (_habsent : st.progressMap.lookup name = none) :
    ((wsIngest settled name inc now st).1 = true ↔
      ¬(settled = true ∧ isTerminalStage inc.stage = false ∧
        (progressTimeOf inc = 0 ∨ now - progressTimeOf inc > fiveMinutesMs))) := by
  have hchar : staleSkip settled inc now = true ↔
      (settled = true ∧ isTerminalStage inc.stage = false ∧
        (progressTimeOf inc = 0 ∨ now - progressTimeOf inc > fiveMinutesMs)) := by
    unfold staleSkip
    simp [Bool.and_eq_true, Bool.or_eq_true, Bool.not_eq_true', and_assoc]
  by_cases h : staleSkip settled inc now = true
  · obtain ⟨hs, h2, h3⟩ := hchar.mp h
    subst hs
    simp [wsIngest, h, h2, h3]
  · simp only [wsIngest]
    rw [if_neg h]
    simp [(not_iff_not.mpr hchar).mp h]

/-- Witness for absent_record_accept_iff_not_stale. -/
theorem absent_record_accept_iff_not_stale_witness :
    ((wsIngest false "kb9" procMath 0 ⟨[], []⟩).1 = true ↔
      ¬(false = true ∧ isTerminalStage procMath.stage = false ∧
        (progressTimeOf procMath = 0 ∨ 0 - progressTimeOf procMath > fiveMinutesMs))) :=
  absent_record_accept_iff_not_stale false "kb9" procMath 0 ⟨[], []⟩ rfl

/-- C3. Sanitize-on-load eviction: a persisted record that is non-terminal
and more than thirty minutes old is discarded; a terminal record is retained
regardless of age; a timestampless record is retained exactly when terminal;
and the sanitized map becomes both the in-memory map and the persisted map
immediately. -/
theorem sanitize_on_load_eviction (now : Int) (saved : ProgressMap) :
    (restoreFromStorage now saved).progressMap = sanitizeOnLoad now saved ∧
    (restoreFromStorage now saved).persisted = sanitizeOnLoad now saved ∧
    ∀ (name : String) (p : ProgressInfo), (name, p) ∈ saved →
      ((∀ ts : Int, isTerminalStage p.stage = false → p.timestamp = some ts →
          now - ts > thirtyMinutesMs → (name, p) ∉ sanitizeOnLoad now saved) ∧
        (isTerminalStage p.stage = true → (name, p) ∈ sanitizeOnLoad now saved) ∧
        (p.timestamp = none →
          ((name, p) ∈ sanitizeOnLoad now saved ↔ isTerminalStage p.stage = true))) := by
  refine ⟨rfl, rfl, ?_⟩
  intro name p hmem
  refine ⟨?_, ?_, ?_⟩
  · intro ts hterm hts hage hin
    have hk := (List.mem_filter.mp hin).2
    simp only [keepOnRestore, hts, hterm, thirtyMinutesMs, Bool.false_or,
      decide_eq_true_eq] at hk
    simp only [thirtyMinutesMs] at hage
    omega
  · intro hterm
    exact List.mem_filter.mpr
      ⟨hmem, by cases h : p.timestamp <;> simp [keepOnRestore, h, hterm]⟩
  · intro hnone
    constructor
    · intro hin
      have hk := (List.mem_filter.mp hin).2
      simpa [keepOnRestore, hnone] using hk
    · intro hterm
      exact List.mem_filter.mpr ⟨hmem, by simp [keepOnRestore, hnone, hterm]⟩

/-- Witness for sanitize_on_load_eviction: at minute 31 the stuck processing
record is gone and the completed record of the same age is retained. -/
theorem sanitize_on_load_eviction_witness :
    ("algebra", oldProc) ∉ sanitizeOnLoad 1860000 savedSample ∧
    ("geometry", oldDone) ∈ sanitizeOnLoad 1860000 savedSample ∧
    (restoreFromStorage 1860000 savedSample).persisted
      = sanitizeOnLoad 1860000 savedSample := by
  have h := sanitize_on_load_eviction 1860000 savedSample
  exact ⟨(h.2.2 "algebra" oldProc (by decide)).1 0 (by decide) rfl (by decide),
    (h.2.2 "geometry" oldDone (by decide)).2.1 (by decide), h.2.1⟩

/-- C7. Offline append fallback: with an active session and a failing
authoritative append, addMessage returns the optimistically appended session,
installs it as the local state and as the persisted copy, and both the
message list length and the message count grow by exactly one. -/
theorem addMessage_offline_fallback (st : SessionCacheState) (s : SolverSession)
    (role : Role) (content : String) (outputDir : Option String) (now : String)
    (hactive : st.session = some s) :
    addMessage st role content outputDir AppendResult.fail now =
      ⟨some (appendedSession s role content outputDir now),
        ⟨some (appendedSession s role content outputDir now),
         some (appendedSession s role content outputDir now), st.lastMessages⟩,
        true⟩ ∧
    (appendedSession s role content outputDir now).messages
      = s.messages ++ [⟨role, content, jsStringOrNull outputDir, some now⟩] ∧
    (appendedSession s role content outputDir now).messages.length
      = s.messages.length + 1 ∧
    (appendedSession s role content outputDir now).message_count
      = s.message_count + 1 := by
  refine ⟨?_, rfl, by simp [appendedSession], rfl⟩
  simp [addMessage, hactive, appendedSession]

/-- Witness for addMessage_offline_fallback at a concrete session. -/
theorem addMessage_offline_fallback_witness :
    addMessage sampleCache Role.user "hi" none AppendResult.fail "T" =
      ⟨some (appendedSession sampleSession Role.user "hi" none "T"),
        ⟨some (appendedSession sampleSession Role.user "hi" none "T"),
         some (appendedSession sampleSession Role.user "hi" none "T"),
         sampleCache.lastMessages⟩,
        true⟩ ∧
    (appendedSession sampleSession Role.user "hi" none "T").message_count
      = sampleSession.message_count + 1 :=
  ⟨(addMessage_offline_fallback sampleCache sampleSession Role.user "hi" none "T"
      rfl).1,
   (addMessage_offline_fallback sampleCache sampleSession Role.user "hi" none "T"
      rfl).2.2.2⟩

/-- C10. With no active session, addMessage returns null, issues no network
request, and leaves the in-memory state and the persisted cache untouched. -/
theorem addMessage_no_session_noop (st : SessionCacheState) (role : Role)
    (content : String) (outputDir : Option String) (backend : AppendResult)
    (now : String) (hnone : st.session = none) :
    addMessage st role content outputDir backend now = ⟨none, st, false⟩ := by
  simp [addMessage, hnone]

/-- Witness for addMessage_no_session_noop. -/
theorem addMessage_no_session_noop_witness :
    addMessage ⟨none, none, none⟩ Role.user "hi" none AppendResult.fail "T"
      = ⟨none, ⟨none, none, none⟩, false⟩ :=
  addMessage_no_session_noop ⟨none, none, none⟩ Role.user "hi" none
    AppendResult.fail "T" rfl

/-- C9. clearSession does not cancel the pending debounced save: after
clearing the sample hook state, the pending timer is still scheduled with
the captured session, and when it fires it issues the PUT for the
destroyed session, even though the session and cache were cleared. -/
theorem clearSession_leaves_pending_save :
    (clearSessionHook sampleHookState).pendingSave = some (1000, sampleSession) ∧
    firePendingSave (clearSessionHook sampleHookState)
      = some ("sess-1", "Algebra homework", "math101") ∧
    (clearSessionHook sampleHookState).cache = ⟨none, none, none⟩ := by
  decide

/-- The debounce closure never fires while calls keep arriving within the
quiet period: each call cancels the pending timeout and schedules a fresh
one holding its own arguments. -/
lemma debRun_chain {α : Type} (wait : Int) :
    ∀ (calls : List (Int × α)) (t0 : Int) (a0 : α),
      withinQuiet wait ((t0, a0) :: calls) = true →
      debRun wait (some (t0 + wait, a0)) calls =
        ([], some ((calls.getLastD (t0, a0)).1 + wait, (calls.getLastD (t0, a0)).2)) := by
  intro calls
  induction calls with
  | nil =>
    intro t0 a0 _
    simp [debRun]
  | cons c rest ih =>
    rcases c with ⟨t1, a1⟩
    intro t0 a0 hq
    have hq' : (t1 - t0 < wait) ∧ withinQuiet wait ((t1, a1) :: rest) = true := by
      simpa [withinQuiet, Bool.and_eq_true, decide_eq_true_eq] using hq
    have hnle : ¬ (t0 + wait ≤ t1) := by omega
    simp only [debRun, if_neg hnle]
    rw [List.getLastD_cons]
    exact ih t1 a1 hq'.2

/-- C8. Debounce collapsing: any nonempty burst of calls whose gaps are all
inside the quiet period produces exactly one write, carrying the arguments
of the last call; and a call arriving before the pending deadline cancels
that pending write and reschedules its own. -/
theorem debounce_collapsing {α : Type} (wait t0 : Int) (a0 : α)
    (rest : List (Int × α)) :
    (withinQuiet wait ((t0, a0) :: rest) = true →
      debFlush wait none ((t0, a0) :: rest) = [(rest.getLastD (t0, a0)).2]) ∧
    (∀ (d : Int) (old : α) (t : Int) (a : α), ¬ d ≤ t →
      debRun wait (some (d, old)) [(t, a)] = ([], some (t + wait, a))) := by
  constructor
  · intro hq
    unfold debFlush
    simp only [debRun]
    rw [debRun_chain wait rest t0 a0 hq]
    simp
  · intro d old t a h
    simp [debRun, if_neg h]

/-- Witness for debounce_collapsing: three calls inside one second collapse
to a single write of the last arguments, and a fresh call cancels a pending
one. -/
theorem debounce_collapsing_witness :
    debFlush 1000 (none : Option (Int × Nat)) [(0, 1), (400, 2), (900, 3)] = [3] ∧
    debRun 1000 (some ((1000 : Int), (1 : Nat))) [(500, 2)] = ([], some (1500, 2)) :=
  ⟨(@debounce_collapsing Nat 1000 0 1 [(400, 2), (900, 3)]).1 (by decide),
   (@debounce_collapsing Nat 1000 0 1 [(400, 2), (900, 3)]).2 1000 1 500 2 (by decide)⟩

lemma contains_of_mem {l : List String} {a : String} (h : a ∈ l) :
    l.contains a = true := by
  simp [List.elem_iff, h]

lemma lookup_set_ne {β : Type} (m : List (String × β)) {k q : String} (v : β)
    (h : q ≠ k) :
    ((m.filter (fun p => p.1 != k)) ++ [(k, v)]).lookup q = m.lookup q := by
  induction m with
  | nil =>
    simp [List.lookup_cons, beq_eq_false_iff_ne.mpr h]
  | cons p m ih =>
    rcases p with ⟨a, b⟩
    by_cases hp : a = k
    · have hb : (a != k) = false := by simp [hp]
      have hq : (q == a) = false := beq_eq_false_iff_ne.mpr (hp ▸ h)
      simp only [List.filter_cons, hb, Bool.false_eq_true, if_false,
        List.lookup_cons, hq]
      exact ih
    · have hb : (a != k) = true := by simp [hp]
      simp only [List.filter_cons, hb, if_true, List.cons_append, List.lookup_cons]
      cases hq : (q == a) with
      | true => rfl
      | false => exact ih

lemma lookup_setConn_self (cs : ConnMap) (n : String) (v : WSReady) :
    (setConn cs n v).lookup n = some v :=
  lookup_set_self cs n v

lemma lookup_setConn_ne (cs : ConnMap) {n q : String} (v : WSReady) (h : q ≠ n) :
    (setConn cs n v).lookup q = cs.lookup q :=
  lookup_set_ne cs v h

lemma mem_setConn {cs : ConnMap} {n : String} {v : WSReady} {p : String × WSReady}
    (h : p ∈ setConn cs n v) : p ∈ cs ∨ p = (n, v) := by
  unfold setConn at h
  rcases List.mem_append.mp h with h1 | h2
  · exact Or.inl (List.mem_of_mem_filter h1)
  · right
    simpa using h2

/-- After the open loop, every name that was iterated has a non-closed
connection in the map. -/
lemma openLoop_lookup (names : List String) :
    ∀ (cs : ConnMap) (acc : List String) (n : String),
      (n ∈ names ∨ ∃ rs, cs.lookup n = some rs ∧ rs ≠ WSReady.Closed) →
      ∃ rs, (openLoop cs acc names).1.lookup n = some rs ∧ rs ≠ WSReady.Closed := by
  induction names with
  | nil =>
    intro cs acc n h
    rcases h with h | h
    · exact absurd h (List.not_mem_nil n)
    · simpa [openLoop] using h
  | cons m rest ih =>
    intro cs acc n h
    cases hlm : cs.lookup m with
    | none =>
      simp only [openLoop, hlm]
      apply ih
      rcases h with h | h
      · rcases List.mem_cons.mp h with rfl | h'
        · exact Or.inr ⟨WSReady.Connecting,
            lookup_setConn_self cs n WSReady.Connecting, by simp⟩
        · exact Or.inl h'
      · rcases h with ⟨rs, hrs, hne⟩
        by_cases hnm : n = m
        · subst hnm
          exact Or.inr ⟨WSReady.Connecting,
            lookup_setConn_self cs n WSReady.Connecting, by simp⟩
        · exact Or.inr ⟨rs,
            by rw [lookup_setConn_ne cs WSReady.Connecting hnm]; exact hrs, hne⟩
    | some rs0 =>
      simp only [openLoop, hlm]
      cases hcl : (rs0 != WSReady.Closed) with
      | true =>
        rw [if_pos rfl]
        apply ih
        rcases h with h | h
        · rcases List.mem_cons.mp h with rfl | h'
          · exact Or.inr ⟨rs0, hlm, bne_iff_ne.mp hcl⟩
          · exact Or.inl h'
        · exact Or.inr h
      | false =>
        rw [if_neg (by simp)]
        apply ih
        rcases h with h | h
        · rcases List.mem_cons.mp h with rfl | h'
          · exact Or.inr ⟨WSReady.Connecting,
              lookup_setConn_self cs n WSReady.Connecting, by simp⟩
          · exact Or.inl h'
        · rcases h with ⟨rs, hrs, hne⟩
          by_cases hnm : n = m
          · subst hnm
            exact Or.inr ⟨WSReady.Connecting,
              lookup_setConn_self cs n WSReady.Connecting, by simp⟩
          · exact Or.inr ⟨rs,
              by rw [lookup_setConn_ne cs WSReady.Connecting hnm]; exact hrs, hne⟩

/-- The open loop introduces no key outside the iterated names. -/
lemma openLoop_keys (names : List String) :
    ∀ (cs : ConnMap) (acc : List String) (p : String × WSReady),
      p ∈ (openLoop cs acc names).1 → p ∈ cs ∨ p.1 ∈ names := by
  induction names with
  | nil =>
    intro cs acc p h
    exact Or.inl (by simpa [openLoop] using h)
  | cons m rest ih =>
    intro cs acc p h
    cases hlm : cs.lookup m with
    | none =>
      simp only [openLoop, hlm] at h
      rcases ih _ _ _ h with h1 | h2
      · rcases mem_setConn h1 with h3 | h4
        · exact Or.inl h3
        · right
          rw [h4]
          simp
      · exact Or.inr (List.mem_cons_of_mem m h2)
    | some rs0 =>
      simp only [openLoop, hlm] at h
      cases hcl : (rs0 != WSReady.Closed) with
      | true =>
        rw [if_pos hcl] at h
        rcases ih _ _ _ h with h1 | h2
        · exact Or.inl h1
        · exact Or.inr (List.mem_cons_of_mem m h2)
      | false =>
        rw [if_neg (by rw [hcl]; exact Bool.false_ne_true)] at h
        rcases ih _ _ _ h with h1 | h2
        · rcases mem_setConn h1 with h3 | h4
          · exact Or.inl h3
          · right
            rw [h4]
            simp
        · exact Or.inr (List.mem_cons_of_mem m h2)

/-- When every iterated name already has a live connection, the open loop
changes nothing and opens nothing. -/
lemma openLoop_noop (names : List String) :
    ∀ (cs : ConnMap) (acc : List String),
      (∀ n ∈ names, ∃ rs, cs.lookup n = some rs ∧ rs ≠ WSReady.Closed) →
      openLoop cs acc names = (cs, acc) := by
  induction names with
  | nil =>
    intro cs acc _
    rfl
  | cons m rest ih =>
    intro cs acc h
    obtain ⟨rs, hrs, hne⟩ := h m (by simp)
    have hcl : (rs != WSReady.Closed) = true := bne_iff_ne.mpr hne
    simp only [openLoop, hrs, if_pos hcl]
    exact ih cs acc (fun n hn => h n (List.mem_cons_of_mem m hn))

lemma openLoop_ne_nil (names : List String) (hne : names ≠ []) (cs : ConnMap)
    (acc : List String) : (openLoop cs acc names).1 ≠ [] := by
  rcases names with _ | ⟨m, rest⟩
  · exact absurd rfl hne
  · obtain ⟨rs, hrs, _⟩ := openLoop_lookup (m :: rest) cs acc m (Or.inl (by simp))
    intro h0
    rw [h0] at hrs
    simp [List.lookup] at hrs

/-- A registry whose connection map covers exactly the tracked names with
live connections is a fixed point of sync, with no channel actions. -/
lemma sync_saturated (S : List String) (cs : ConnMap) (hS : S ≠ [])
    (P1 : ∀ p ∈ cs, S.contains p.1 = true)
    (P2 : ∀ n ∈ S, ∃ rs, cs.lookup n = some rs ∧ rs ≠ WSReady.Closed) :
    sync S ⟨cs, S⟩ = (⟨cs, S⟩, ⟨[], []⟩) := by
  have hcs : cs ≠ [] := by
    rcases S with _ | ⟨m, rest⟩
    · exact absurd rfl hS
    · obtain ⟨rs, hrs, _⟩ := P2 m (by simp)
      intro h0
      rw [h0] at hrs
      simp [List.lookup] at hrs
  have hempty : cs.isEmpty = false := by
    cases cs with
    | nil => exact absurd rfl hcs
    | cons a l => rfl
  have hSempty : S.isEmpty = false := by
    cases S with
    | nil => exact absurd rfl hS
    | cons a l => rfl
  by_cases hkey : (sortedKey S != "") = true
  · have hcond : (sortedKey S == sortedKey S && sortedKey S != "" &&
        !cs.isEmpty) = true := by
      simp [hkey, hempty]
    unfold sync
    dsimp only
    rw [if_pos hcond]
  · have hkey' : (sortedKey S != "") = false := by
      cases hk2 : (sortedKey S != "") with
      | false => rfl
      | true => exact absurd hk2 hkey
    have hcond : (sortedKey S == sortedKey S && sortedKey S != "" &&
        !cs.isEmpty) = false := by
      simp [hkey']
    have hfilter : cs.filter (fun c => S.contains c.1) = cs :=
      List.filter_eq_self.mpr P1
    have hstale : cs.filter (fun c => !S.contains c.1) = [] := by
      apply List.filter_eq_nil_iff.mpr
      intro p hp
      simp only [P1 p hp]
      decide
    unfold sync
    dsimp only
    rw [if_neg (by rw [hcond]; exact Bool.false_ne_true),
      if_neg (by rw [hSempty]; exact Bool.false_ne_true),
      hfilter, hstale, openLoop_noop S cs [] P2]
    rfl

/-- Running sync twice in a row with the same KB list performs no channel
actions the second time and leaves the state fixed. -/
lemma sync_twice (S : List String) (st : RegistryState) :
    sync S (sync S st).1 = ((sync S st).1, ⟨[], []⟩) := by
  by_cases hc : (sortedKey S == sortedKey st.prevNames && sortedKey S != "" &&
      !st.connections.isEmpty) = true
  · have h1 : sync S st = (st, ⟨[], []⟩) := by
      unfold sync
      rw [if_pos hc]
    simp only [h1]
  · by_cases hT : S.isEmpty = true
    · have hS : S = [] := by
        cases S with
        | nil => rfl
        | cons a l => simp at hT
      subst hS
      have h1 : (sync ([] : List String) st).1 = ⟨[], []⟩ := by
        unfold sync
        rw [if_neg hc]
        rfl
      rw [h1]
      decide
    · have hSne : S ≠ [] := fun h => hT (by rw [h]; rfl)
      have h1 : sync S st =
          (⟨(openLoop (st.connections.filter (fun c => S.contains c.1)) [] S).1, S⟩,
           ⟨(openLoop (st.connections.filter (fun c => S.contains c.1)) [] S).2,
            ((st.connections.filter (fun c => !S.contains c.1)).filter
              (fun c => isActiveWS c.2)).map (fun c => c.1)⟩) := by
        unfold sync
        rw [if_neg hc, if_neg hT]
      simp only [h1]
      apply sync_saturated S _ hSne
      · intro p hp
        rcases openLoop_keys S _ [] p hp with hk | hk
        · exact (List.mem_filter.mp hk).2
        · exact contains_of_mem hk
      · intro n hn
        exact openLoop_lookup S _ [] n (Or.inl hn)

/-- If the first sync call leaves any connection in the registry, a second
call with a tracked list identical to the recorded one returns the state
unchanged with no channel actions. -/
lemma sync_second (T : List String) (st : RegistryState)
    (hconn : (sync T st).1.connections ≠ []) :
    sync (sync T st).1.prevNames (sync T st).1 = ((sync T st).1, ⟨[], []⟩) := by
  by_cases hc : (sortedKey T == sortedKey st.prevNames && sortedKey T != "" &&
      !st.connections.isEmpty) = true
  · have h1 : sync T st = (st, ⟨[], []⟩) := by
      unfold sync
      rw [if_pos hc]
    obtain ⟨⟨hkeq, hkne⟩, hcne⟩ :
        ((sortedKey T == sortedKey st.prevNames) = true ∧
          (sortedKey T != "") = true) ∧ (!st.connections.isEmpty) = true := by
      simpa [Bool.and_eq_true] using hc
    have heq : sortedKey T = sortedKey st.prevNames := eq_of_beq hkeq
    have hkne' : (sortedKey st.prevNames != "") = true := by
      rw [← heq]
      exact hkne
    have hcond2 : (sortedKey st.prevNames == sortedKey st.prevNames &&
        sortedKey st.prevNames != "" && !st.connections.isEmpty) = true := by
      simp [hkne', hcne]
    simp only [h1]
    unfold sync
    rw [if_pos hcond2]
  · by_cases hT : T.isEmpty = true
    · have h1 : (sync T st).1 = ⟨[], []⟩ := by
        unfold sync
        rw [if_neg hc, if_pos hT]
      rw [h1] at hconn
      exact absurd rfl hconn
    · have hTne : T ≠ [] := fun h => hT (by rw [h]; rfl)
      have h1 : sync T st =
          (⟨(openLoop (st.connections.filter (fun c => T.contains c.1)) [] T).1, T⟩,
           ⟨(openLoop (st.connections.filter (fun c => T.contains c.1)) [] T).2,
            ((st.connections.filter (fun c => !T.contains c.1)).filter
              (fun c => isActiveWS c.2)).map (fun c => c.1)⟩) := by
        unfold sync
        rw [if_neg hc, if_neg hT]
      simp only [h1]
      apply sync_saturated T _ hTne
      · intro p hp
        rcases openLoop_keys T _ [] p hp with hk | hk
        · exact (List.mem_filter.mp hk).2
        · exact contains_of_mem hk
      · intro n hn
        exact openLoop_lookup T _ [] n (Or.inl hn)

/-- C4. Idempotent registry sync: a second sync with the same KB list opens
no channel and closes no channel; and whenever a sync call leaves any
connection registered, re-running sync with the recorded tracked list is
skipped entirely — the state is returned unchanged with no actions. -/
theorem registry_sync_idempotent (st : RegistryState) (S T : List String) :
    (sync S (sync S st).1).2 = ⟨[], []⟩ ∧
    ((sync T st).1.connections ≠ [] →
      sync (sync T st).1.prevNames (sync T st).1 = ((sync T st).1, ⟨[], []⟩)) :=
  ⟨by rw [sync_twice S st], fun hconn => sync_second T st hconn⟩

/-- Witness for registry_sync_idempotent at a concrete registry run. -/
theorem registry_sync_idempotent_witness :
    (sync ["math101"] (sync ["math101"] (⟨[], []⟩ : RegistryState)).1).2
      = ⟨[], []⟩ ∧
    sync (sync ["math101"] (⟨[], []⟩ : RegistryState)).1.prevNames
        (sync ["math101"] (⟨[], []⟩ : RegistryState)).1
      = ((sync ["math101"] (⟨[], []⟩ : RegistryState)).1, ⟨[], []⟩) :=
  ⟨(registry_sync_idempotent ⟨[], []⟩ ["math101"] ["math101"]).1,
   (registry_sync_idempotent ⟨[], []⟩ ["math101"] ["math101"]).2 (by decide)⟩

end OpenTutor
